import Mathlib

/-!
Verification of the CodeMirrorBlocks synchronization engine
(src/src/ui/Toolbar.js, second part of the file: the `CodeMirrorBlocks`
class).

Modelling conventions:
* The text buffer is a flat list of characters.  CodeMirror positions
  `{line, ch}` are identified with their flat offsets: `cm.indexFromPos`
  is the order-preserving bijection between valid positions and offsets,
  so position comparison (`indexFromPos(p) < indexFromPos(q)`) and
  field-wise position equality (`p.line == q.line && p.ch == q.ch`)
  coincide with offset comparison and offset equality.
* `cm.replaceRange(text, from, to)` splices `text` over the half-open
  offset range `[from, to)`; `cm.replaceRange(text, pos)` is the special
  case `from = to = pos` (insertion).
* External collaborators (parser `lex`, DOM elements, renderer) appear as
  parameters: `lex` as a boolean predicate (`true` = does not raise),
  DOM element state as explicit structures.
* Effects on the buffer are reified as lists of operations, in issue
  order, so that ordering claims are statements about those lists.
-/

namespace CodeMirrorBlocks

/-- A text buffer: flat character content of the CodeMirror instance. -/
abbrev Buffer := List Char

/-- `cm.replaceRange(text, from, to)`: replace the half-open range
`[f, t)` of the buffer with `text`. -/
def replaceRange (buf text : Buffer) (f t : Nat) : Buffer :=
  buf.take f ++ text ++ buf.drop t

/-- `cm.getRange(from, to)`: the contents of the half-open range `[f, t)`. -/
def getRange (buf : Buffer) (f t : Nat) : Buffer :=
  (buf.take t).drop f

/-- An AST node as used by `dropOntoNode` / `saveEdit`: stable `id`,
`type` string, and its buffer range (`from`/`to`, linearized). -/
structure Node where
  id : String
  type : String
  fromPos : Nat
  toPos : Nat
deriving DecidableEq

/-- One buffer mutation issued through `cm.replaceRange`. -/
inductive Mutation
  | replace (text : Buffer) (fromPos toPos : Nat)
deriving DecidableEq

def applyMutation (buf : Buffer) : Mutation → Buffer
  | .replace text f t => replaceRange buf text f t

/-- Apply a list of mutations in issue order (the contents of one
`cm.operation` transaction). -/
def applyMutations (buf : Buffer) (ms : List Mutation) : Buffer :=
  ms.foldl applyMutation buf

/-- Both edits computed against the *original* offsets, applied
simultaneously: `text1` replaces `[f1, e1)` and `text2` replaces
`[f2, e2)`, where the first range lies entirely before the second
(`f1 ≤ e1 ≤ f2 ≤ e2`). -/
def simultaneousEdits (buf text1 : Buffer) (f1 e1 : Nat)
    (text2 : Buffer) (f2 e2 : Nat) : Buffer :=
  buf.take f1 ++ text1 ++ (buf.take f2).drop e1 ++ text2 ++ buf.drop e2

/-- Outcome of one call to `dropOntoNode`. -/
inductive DropOutcome
  /-- `!this.isDropTarget(event.target)`: early return, nothing happens. -/
  | notDropTarget
  /-- An uncaught JavaScript `TypeError` escapes the handler. -/
  | crash (msg : String)
  /-- The explicit early `return` at the self-drop check: no mutation. -/
  | noop
  /-- The `cm.operation` transaction runs, issuing `ops` in order. -/
  | mutations (ops : List Mutation)
deriving DecidableEq

/-- The transaction body shared by both branches of `dropOntoNode`
(lines 524-560): compare the stored source start against the destination
start (`cm.indexFromPos(sourceNode.from) < cm.indexFromPos(...)`) and
issue the two `cm.replaceRange` calls in the position-preserving order —
when the source precedes the destination, replace the destination first
and then clear the source; otherwise clear the source first and then
replace the destination. -/
def dropMutations (text : Buffer) (srcFrom srcTo destFrom destTo : Nat) :
    List Mutation :=
  if srcFrom < destFrom then
    [.replace text destFrom destTo, .replace [] srcFrom srcTo]
  else
    [.replace [] srcFrom srcTo, .replace text destFrom destTo]

/-- `dropOntoNode(destinationNode, event)` (src/src/ui/Toolbar.js lines
487-561), with the event and instance state made explicit:
* `buf` — the buffer contents;
* `nodeMap` — `this.ast.nodeMap` as an association list;
* `willInsert` — `this.willInsertNode` applied to the source text
  (`none` when no hook is registered);
* `destinationNode` — the node the dispatcher resolved from the target;
* `isTarget` — `this.isDropTarget(event.target)`;
* `dataId` — `event.dataTransfer.getData('text/id')` (`""` when absent,
  which is falsy: the code only logs and continues);
* `elLoc` — `getLocationFromEl(event.target)`;
* `eventLoc`, `outside` — `cm.coordsChar({left, top})` and its `outside`
  flag, consulted only when `elLoc` is absent.
`event.target.classList.remove('blocks-over-target')` and the
`didInsertNode` hook touch no buffer state and are omitted. -/
def dropOntoNode (buf : Buffer) (nodeMap : List (String × Node))
    (willInsert : Option (Buffer → Buffer)) (destinationNode : Option Node)
    (isTarget : Bool) (dataId : String) (elLoc : Option Nat)
    (eventLoc : Nat) (outside : Bool) : DropOutcome :=
  if !isTarget then
    .notDropTarget
  else
    match nodeMap.lookup dataId with
    | none =>
      -- console.error("node", nodeId, "not found in AST") — and then the
      -- very next statement reads `sourceNode.from` off `undefined`:
      .crash "TypeError: cannot read property from of undefined"
    | some sourceNode =>
      let text0 := getRange buf sourceNode.fromPos sourceNode.toPos
      let sourceNodeText :=
        if elLoc.isNone && outside then '\n' :: text0 else text0
      let destination := elLoc.getD eventLoc
      if destination = sourceNode.toPos ∨ destination = sourceNode.fromPos then
        -- destination is the same as source node location: no-op
        .noop
      else
        match destinationNode with
        | some dn =>
          if dn.type = "literal" then
            .mutations (dropMutations sourceNodeText
              sourceNode.fromPos sourceNode.toPos dn.fromPos dn.toPos)
          else
            let text1 := match willInsert with
                         | some f => f sourceNodeText
                         | none => sourceNodeText
            .mutations (dropMutations text1
              sourceNode.fromPos sourceNode.toPos destination destination)
        | none =>
          let text1 := match willInsert with
                       | some f => f sourceNodeText
                       | none => sourceNodeText
          .mutations (dropMutations text1
            sourceNode.fromPos sourceNode.toPos destination destination)

/-- A node as seen by the literal-edit save path: its buffer range and
whether `node.quarantine` holds a bookmark. -/
structure EditNode where
  fromPos : Nat
  toPos : Nat
  quarantine : Bool
deriving DecidableEq

/-- One side effect issued by `saveEdit`, in issue order. -/
inductive EditOp
  /-- `node.quarantine.clear()`: release the quarantine bookmark. -/
  | clearQuarantine
  /-- `this.cm.replaceRange(text, range.from, range.to)` inside
  `saveEditableEl`. -/
  | replace (text : Buffer) (fromPos toPos : Nat)
deriving DecidableEq

/-- The state visible after a `saveEdit` call. -/
structure EditResult where
  /-- Buffer contents afterwards. -/
  buf : Buffer
  /-- `this.hasInvalidEdit` afterwards. -/
  hasInvalidEdit : Bool
  /-- The side effects issued, in order. -/
  ops : List EditOp
  /-- `some node` when a deferred `editLiteral(node, event)` was scheduled
  (the 50 ms `setTimeout` that wrests focus back into edit mode). -/
  reenterEdit : Option EditNode
deriving DecidableEq

/-- `saveEdit(node, nodeEl, event)` (src/src/ui/Toolbar.js lines 367-380)
together with `checkEditableEl` (350-365) and `saveEditableEl` (337-348).
`lexOk text` is `true` exactly when the external `parser.lex(text)` does
not raise (`checkEditableEl` returns `true`); `elText` is
`nodeEl.innerText`; `buf` and `hasInvalidEdit` are the instance state on
entry.  On success with a quarantine node, a single space is appended
(`nodeEl.innerText += " "`) and the bookmark is cleared before
`saveEditableEl` issues the one `replaceRange`; on failure nothing is
written, `editLiteral` is re-scheduled on the same node, and
`this.hasInvalidEdit` is set — it is never reset anywhere in the file. -/
def saveEdit (lexOk : Buffer → Bool) (node : EditNode) (elText : Buffer)
    (buf : Buffer) (hasInvalidEdit : Bool) : EditResult :=
  if lexOk elText then
    if node.quarantine then
      let text := elText ++ [' ']
      { buf := replaceRange buf text node.fromPos node.toPos
        hasInvalidEdit := hasInvalidEdit
        ops := [.clearQuarantine, .replace text node.fromPos node.toPos]
        reenterEdit := none }
    else
      { buf := replaceRange buf elText node.fromPos node.toPos
        hasInvalidEdit := hasInvalidEdit
        ops := [.replace elText node.fromPos node.toPos]
        reenterEdit := none }
  else
    { buf := buf
      hasInvalidEdit := true
      ops := []
      reenterEdit := some node }

/-- `cancelIfErrorExists(event)` (lines 606-611): returns whether the
event was suppressed (`preventDefault` + `stopPropagation`), which happens
exactly when `this.hasInvalidEdit` is set.  It is installed on `mousedown`
(pointer-triggered selection) and `dblclick` (double-activation). -/
def cancelIfErrorExists (hasInvalidEdit : Bool) : Bool :=
  if hasInvalidEdit then true else false

/-- The node and element state produced by `insertionQuarantine`. -/
structure QuarantineResult where
  node : EditNode
  elText : Buffer
  bookmarkAt : Nat
deriving DecidableEq

/-- `insertionQuarantine(e)` (lines 563-577).  `e.preventDefault()`
suppresses the default buffer mutation, so the buffer itself is
untouched.  The filler whitespace `ws` reproduces the cursor position, so
`parser.parse(ws + "x")` yields one `literal` node whose range is the
single sentinel character at the cursor (`[cur, cur+1)` in flat
offsets); the node's element text is replaced with the intercepted
`text` (`node.el.innerText = text`), and `node.to.ch = node.from.ch`
forces the recorded range to zero width, `[cur, cur)`; the bookmark
created at the cursor is stored as `node.quarantine` (modelled by the
`quarantine` flag plus `bookmarkAt`).  A deferred `editLiteral` then
opens this node for editing. -/
def insertionQuarantine (cur : Nat) (text : Buffer) : QuarantineResult :=
  { node := { fromPos := cur, toPos := cur, quarantine := true }
    elText := text
    bookmarkAt := cur }

/-- A tree node as seen by the navigation loop: only its hidden status
matters (`isNodeHidden` inspects the element's classes, which are
presentation state). -/
structure VNode where
  hidden : Bool
deriving DecidableEq

/-- Result of the hidden-skipping selection loop. -/
inductive NavOutcome
  /-- `selectNode(nextNode, event)` was reached on this node. -/
  | selected (n : VNode)
  /-- The loop guard evaluated `isNodeHidden(undefined)`, whose body reads
  `node.el` off `undefined`: an uncaught `TypeError`. -/
  | crash (msg : String)
deriving DecidableEq

/-- `selectNextNode(event)` (lines 292-299): `nextNode =
this.ast.getNodeAfter(start); while (this.isNodeHidden(nextNode))
nextNode = this.ast.getNodeAfter(nextNode); this.selectNode(nextNode)`.
Modelled from the spec: `ast.getNodeAfter` itself is not among the
sources under verification (the AST module is absent from src/); §4.3
specifies the traversal as the tree's inorder successor relation over a
finite tree, so the nodes strictly after the starting node or cursor
form a finite ordered list `after`, and the successor past its last
element is empty.  The loop consumes `after` in order; when the
successor runs out it evaluates `isNodeHidden` on a missing node. -/
def selectNextNode : List VNode → NavOutcome
  | [] => .crash "TypeError: cannot read property el of undefined"
  | n :: rest => if n.hidden then selectNextNode rest else .selected n

/-- `selectPrevNode(event)` (lines 301-308), symmetric to
`selectNextNode` over `ast.getNodeBefore`: `before` lists the nodes
strictly before the starting point, nearest first. -/
def selectPrevNode : List VNode → NavOutcome
  | [] => .crash "TypeError: cannot read property el of undefined"
  | n :: rest => if n.hidden then selectPrevNode rest else .selected n

/-- `classList.add`: appends the token when absent. -/
def classListAdd (cs : List String) (c : String) : List String :=
  if cs.contains c then cs else cs ++ [c]

/-- `classList.remove`: drops every occurrence of the token. -/
def classListRemove (cs : List String) (c : String) : List String :=
  cs.filter (fun x => x ≠ c)

/-- `this.blockMode` is `false` (off) or a mode string.  DOMTokenList
stringifies its argument, so `classList.remove(this.blockMode)` with
`blockMode === false` removes the token "false". -/
def modeToken : Option String → String
  | none => "false"
  | some m => m

/-- The instance state `setBlockMode` reads and writes: the mode flag,
the wrapper element's class list, and the set of marks (abstracted to
ids) that `getAllMarks` would return. -/
structure CMState where
  blockMode : Option String
  classes : List String
  marks : List Nat
deriving DecidableEq

/-- `setBlockMode(mode)` (lines 182-203).  Equal target: early return.
Falsy target (turning blocks off): clear every marker — and nothing
else; the wrapper class list is not touched in this branch.  Otherwise
(animated block-to-block transition, or first activation — the two
branches differ only in renderer calls, which are external): remove the
previous mode token from the wrapper class list and add the new one.
All non-returning branches end with `this.blockMode = mode`. -/
def setBlockMode (s : CMState) (mode : Option String) : CMState :=
  if mode = s.blockMode then
    s
  else if mode = none then
    { s with marks := [], blockMode := mode }
  else
    { s with
      classes := classListAdd (classListRemove s.classes
        (modeToken s.blockMode)) (modeToken mode)
      blockMode := mode }

/-- The option keys `markText` accepts (line 212). -/
def supportedOptions : List String := ["css", "className", "title"]

/-- A CodeMirror mark as inspected by `markText`: whether it is
`replacedWith` an element carrying the class "blocks-node". -/
structure CMMark where
  isBlocksNode : Bool
deriving DecidableEq

/-- Outcome of one `markText` call. -/
inductive MarkOutcome
  /-- `throw new Error(...)` out of the option-validation loop. -/
  | raised (msg : String)
  /-- No options at all: explicit no-op return. -/
  | noop
  /-- Decorated an existing blocks-node mark; a `BlockMarker` is
  returned and registered. -/
  | blockMarker
  /-- No blocks-node mark found: fall through to `cm.markText`. -/
  | passthrough
deriving DecidableEq

/-- `markText(from, to, options)` (lines 211-243).  `options` is the list
of the option object's keys in `for...in` iteration order; `marks` is
`cm.findMarks(from, to)`.  The validation loop throws at the first key
outside the supported set — before any decoration is created or touched;
with no keys at all the call is an explicit no-op. -/
def markText (options : List String) (marks : List CMMark) : MarkOutcome :=
  match options.find? (fun o => !supportedOptions.contains o) with
  | some o => .raised ("option \"" ++ o ++ "\" is not supported by markText")
  | none =>
    if options.isEmpty then
      .noop
    else
      match marks.find? (fun m => m.isBlocksNode) with
      | some _ => .blockMarker
      | none => .passthrough

/-- A DOM element as inspected by the node event dispatcher: its class
list. -/
structure DomEl where
  classes : List String
deriving DecidableEq

/-- A handler table passed to `nodeEventHandler`, after the
function-to-object normalization (`{default: handlers}`): whether a
`whitespace` handler exists, which node types have a specific handler,
and whether a `default` handler exists. -/
structure Handlers where
  whitespace : Bool
  typed : List String
  hasDefault : Bool
deriving DecidableEq

/-- Which call, if any, the dispatcher makes for one event. -/
inductive Dispatch
  /-- `handlers.whitespace.call(this, event.target, event)`. -/
  | whitespaceCall
  /-- `handlers[node.type].call(this, node, event)`. -/
  | typedCall (t : String)
  /-- `handlers.default.call(this, node, event)`. -/
  | defaultCall
  /-- blank target + dragstart: `event.stopPropagation(); return false`
  before any handler runs. -/
  | suppressed
  /-- No branch fired: the event falls through unhandled. -/
  | noCall
deriving DecidableEq

/-- `nodeEventHandler(handlers, callWithNullNode)` (lines 613-643): the
returned closure applied to one event, where `node` is
`this.findNodeFromEl(event.target)`, `target` the event target element
and `eventType` the event's type string. -/
def nodeEventHandler (handlers : Handlers) (callWithNullNode : Bool)
    (node : Option Node) (target : DomEl) (eventType : String) : Dispatch :=
  if node.isSome || callWithNullNode then
    if target.classes.contains "blocks-white-space" && handlers.whitespace then
      .whitespaceCall
    else if target.classes.contains "blocks-blank"
        && (eventType == "dragstart") then
      .suppressed
    else
      match node with
      | some n =>
        if handlers.typed.contains n.type then .typedCall n.type
        else if handlers.hasDefault then .defaultCall
        else .noCall
      | none => if handlers.hasDefault then .defaultCall else .noCall
  else
    .noCall

/-- The dispatcher installed for `dragstart` events:
`nodeEventHandler(this.startDraggingNode)` normalizes the function to
`{default: startDraggingNode}`, with `callWithNullNode` left `false`.
`startDraggingNode` (lines 434-441) is the only place a drag payload
(`text/plain`, `text/id`) is attached. -/
def dragstartHandlers : Handlers :=
  { whitespace := false, typed := [], hasDefault := true }

/-- Splice lemma: issuing the edit on the *later* range `[f2, e2)` first
and the edit on the *earlier* range `[f1, e1)` second leaves every
stored offset valid, and agrees with the simultaneous application. -/
theorem replace_later_first (buf t1 t2 : Buffer) (f1 e1 f2 e2 : Nat)
    (h1 : f1 ≤ e1) (h2 : e1 ≤ f2) (h3 : f2 ≤ e2) (h4 : e2 ≤ buf.length) :
    replaceRange (replaceRange buf t2 f2 e2) t1 f1 e1
      = simultaneousEdits buf t1 f1 e1 t2 f2 e2 := by
  unfold replaceRange simultaneousEdits
  have hf2len : f2 ≤ buf.length := le_trans h3 h4
  have hlen : (buf.take f2).length = f2 := by
    simp [List.length_take, Nat.min_eq_left hf2len]
  have hf1 : f1 ≤ (buf.take f2).length := by omega
  have he1 : e1 ≤ (buf.take f2).length := by omega
  rw [List.append_assoc (List.take f2 buf) t2 (List.drop e2 buf),
      List.take_append_of_le_length hf1,
      List.drop_append_of_le_length he1, List.take_take,
      Nat.min_eq_left (le_trans h1 h2)]
  simp

/-- C1: Offset safety of drag-and-drop relocation.  (i) For disjoint
ranges with the source `A = [a1, a2)` entirely before the destination
`B = [b1, b2)`, issuing "replace B with the source text, then clear A"
equals the simultaneous application at original offsets; (ii) when B is
entirely before A, issuing "clear A, then replace B" equals that same
simultaneous application; (iii) whenever `dropOntoNode` reaches its
transaction, the two mutations it issues are exactly in this
position-preserving order, decided by comparing the source start against
the destination start. -/
theorem dropOntoNode_offset_safety :
    (∀ (buf s : Buffer) (a1 a2 b1 b2 : Nat),
       a1 ≤ a2 → a2 ≤ b1 → b1 ≤ b2 → b2 ≤ buf.length →
       applyMutations buf [.replace s b1 b2, .replace [] a1 a2]
         = simultaneousEdits buf [] a1 a2 s b1 b2)
  ∧ (∀ (buf s : Buffer) (a1 a2 b1 b2 : Nat),
       b1 ≤ b2 → b2 ≤ a1 → a1 ≤ a2 → a2 ≤ buf.length →
       applyMutations buf [.replace [] a1 a2, .replace s b1 b2]
         = simultaneousEdits buf s b1 b2 [] a1 a2)
  ∧ (∀ (text : Buffer) (sf st d1 d2 : Nat),
       (sf < d1 → dropMutations text sf st d1 d2
          = [.replace text d1 d2, .replace [] sf st])
     ∧ (¬ sf < d1 → dropMutations text sf st d1 d2
          = [.replace [] sf st, .replace text d1 d2]))
  ∧ (∀ (buf : Buffer) (nodeMap : List (String × Node))
       (wi : Option (Buffer → Buffer)) (dnode : Option Node)
       (isT : Bool) (dataId : String) (elLoc : Option Nat)
       (evLoc : Nat) (out : Bool) (src : Node) (ops : List Mutation),
       nodeMap.lookup dataId = some src →
       dropOntoNode buf nodeMap wi dnode isT dataId elLoc evLoc out
         = .mutations ops →
       ∃ text d1 d2,
         ops = dropMutations text src.fromPos src.toPos d1 d2) := by
  refine ⟨?_, ?_, ?_, ?_⟩
  · intro buf s a1 a2 b1 b2 h1 h2 h3 h4
    simpa [applyMutations, applyMutation] using
      replace_later_first buf [] s a1 a2 b1 b2 h1 h2 h3 h4
  · intro buf s a1 a2 b1 b2 h1 h2 h3 h4
    simpa [applyMutations, applyMutation] using
      replace_later_first buf s [] b1 b2 a1 a2 h1 h2 h3 h4
  · intro text sf st d1 d2
    constructor <;> intro h <;> simp [dropMutations, h]
  · intro buf nodeMap wi dnode isT dataId elLoc evLoc out src ops hsrc hops
    unfold dropOntoNode at hops
    by_cases hT : isT
    · rw [hT] at hops
      rw [if_neg (by simp)] at hops
      simp only [hsrc] at hops
      by_cases hno : elLoc.getD evLoc = src.toPos ∨ elLoc.getD evLoc = src.fromPos
      · rw [if_pos hno] at hops
        simp at hops
      · rw [if_neg hno] at hops
        rcases dnode with _ | dn <;> dsimp only at hops
        · injection hops with h
          exact ⟨_, _, _, h.symm⟩
        · by_cases hdn : dn.type = "literal"
          · rw [if_pos hdn] at hops
            injection hops with h
            exact ⟨_, _, _, h.symm⟩
          · rw [if_neg hdn] at hops
            injection hops with h
            exact ⟨_, _, _, h.symm⟩
    · simp [hT] at hops

/-- Witness for `dropOntoNode_offset_safety` at concrete inputs. -/
theorem dropOntoNode_offset_safety_witness :
    (applyMutations ['a','b','c','d','e','f']
        [.replace ['X'] 2 3, .replace [] 0 1]
      = simultaneousEdits ['a','b','c','d','e','f'] [] 0 1 ['X'] 2 3)
  ∧ (applyMutations ['a','b','c','d','e','f']
        [.replace [] 4 5, .replace ['Y'] 1 2]
      = simultaneousEdits ['a','b','c','d','e','f'] ['Y'] 1 2 [] 4 5)
  ∧ (dropMutations ['Z'] 0 1 3 4 = [.replace ['Z'] 3 4, .replace [] 0 1])
  ∧ (∃ text d1 d2,
      [Mutation.replace ['x'] 3 3, Mutation.replace [] 0 1]
        = dropMutations text 0 1 d1 d2) := by
  refine ⟨?_, ?_, ?_, ?_⟩
  · exact dropOntoNode_offset_safety.1 ['a','b','c','d','e','f'] ['X']
      0 1 2 3 (by decide) (by decide) (by decide) (by decide)
  · exact dropOntoNode_offset_safety.2.1 ['a','b','c','d','e','f'] ['Y']
      4 5 1 2 (by decide) (by decide) (by decide) (by decide)
  · exact (dropOntoNode_offset_safety.2.2.1 ['Z'] 0 1 3 4).1 (by decide)
  · exact dropOntoNode_offset_safety.2.2.2 ['x',' ','y']
      [("s1", ⟨"s1", "literal", 0, 1⟩)] none none true "s1" (some 3) 0 false
      ⟨"s1", "literal", 0, 1⟩ [Mutation.replace ['x'] 3 3, Mutation.replace [] 0 1]
      (by decide) (by decide)

/-- C2: a drop whose carried source id does not resolve in the current
tree's `nodeMap` issues no buffer mutation, but it is *not* the harmless
reported no-op the spec promises: after `console.error`, the missing
`return` lets control fall through to `sourceNode.from`, which dereferences
`undefined` and throws an uncaught `TypeError` out of the drop handler. -/
theorem dropOntoNode_stale_id_crash :
    dropOntoNode ['(', '+', ' ', '1', ')']
        [("n3", ⟨"n3", "literal", 3, 4⟩)] none none true "stale" none 0 false
      = .crash "TypeError: cannot read property from of undefined" := by
  decide

/-- C5: when the resolved destination position coincides exactly with the
dragged source node's own start or end position, `dropOntoNode` returns at
the explicit no-op check and never reaches the `cm.operation` transaction:
no `replaceRange` is issued in either branch. -/
theorem dropOntoNode_self_drop_noop (buf : Buffer)
    (nodeMap : List (String × Node)) (wi : Option (Buffer → Buffer))
    (dnode : Option Node) (dataId : String) (elLoc : Option Nat)
    (evLoc : Nat) (out : Bool) (src : Node)
    (hsrc : nodeMap.lookup dataId = some src)
    (hdest : elLoc.getD evLoc = src.toPos ∨ elLoc.getD evLoc = src.fromPos) :
    dropOntoNode buf nodeMap wi dnode true dataId elLoc evLoc out
      = .noop := by
  unfold dropOntoNode
  rw [if_neg (by simp)]
  simp only [hsrc]
  rw [if_pos hdest]

/-- Witness for `dropOntoNode_self_drop_noop`: dropping the node spanning
`[2, 3)` exactly onto its own start offset. -/
theorem dropOntoNode_self_drop_noop_witness :
    dropOntoNode ['(', 'f', ' ', 'x', ')']
        [("n7", ⟨"n7", "literal", 2, 3⟩)] none none true "n7" (some 2) 0 false
      = .noop :=
  dropOntoNode_self_drop_noop ['(', 'f', ' ', 'x', ')']
    [("n7", ⟨"n7", "literal", 2, 3⟩)] none none "n7" (some 2) 0 false
    ⟨"n7", "literal", 2, 3⟩ (by decide) (by decide)

/-- C3: an in-place literal edit mutates the buffer iff the edited text
lexes.  When `lex` fails on blur, the buffer is completely unchanged, no
operation is issued, and edit mode is re-entered on the same node; a
`replaceRange` is issued iff the text lexes. -/
theorem saveEdit_mutates_iff_lexes (lexOk : Buffer → Bool)
    (node : EditNode) (elText buf : Buffer) (flag : Bool) :
    (lexOk elText = false →
       (saveEdit lexOk node elText buf flag).buf = buf
       ∧ (saveEdit lexOk node elText buf flag).ops = []
       ∧ (saveEdit lexOk node elText buf flag).reenterEdit = some node)
  ∧ ((∃ t f e, EditOp.replace t f e ∈ (saveEdit lexOk node elText buf flag).ops)
       ↔ lexOk elText = true) := by
  constructor
  · intro h
    simp [saveEdit, h]
  · constructor
    · rintro ⟨t, f, e, hmem⟩
      by_cases h : lexOk elText = true
      · exact h
      · rw [Bool.not_eq_true] at h
        simp [saveEdit, h] at hmem
    · intro h
      by_cases hq : node.quarantine
      · exact ⟨elText ++ [' '], node.fromPos, node.toPos,
          by simp [saveEdit, h, hq]⟩
      · exact ⟨elText, node.fromPos, node.toPos,
          by simp [saveEdit, h, hq]⟩

/-- Witness for `saveEdit_mutates_iff_lexes`: a lexer accepting exactly
the text "y"; blurring with "(" leaves the buffer "x" alone and
re-enters edit mode on the node. -/
theorem saveEdit_mutates_iff_lexes_witness :
    (saveEdit (fun t => decide (t = ['y'])) ⟨0, 1, false⟩ ['('] ['x'] false).buf = ['x']
    ∧ (saveEdit (fun t => decide (t = ['y'])) ⟨0, 1, false⟩ ['('] ['x'] false).ops = []
    ∧ (saveEdit (fun t => decide (t = ['y'])) ⟨0, 1, false⟩ ['('] ['x'] false).reenterEdit
        = some ⟨0, 1, false⟩ :=
  (saveEdit_mutates_iff_lexes (fun t => decide (t = ['y']))
    ⟨0, 1, false⟩ ['('] ['x'] false).1 (by decide)

/-- C4: the invalid-edit flag is raised by a failed validation, and while
raised `cancelIfErrorExists` suppresses pointer selection and
double-activation; but `this.hasInvalidEdit` is assigned only at line 378
and read at line 607 — no code path ever resets it.  After the failed
blur with "(" the flag is up; the next blur with "y" commits (one
`replaceRange`, buffer becomes "y"), yet the flag is still up and the
suppression persists, where the claim says the flag is cleared on
successful commit. -/
theorem hasInvalidEdit_never_cleared :
    (saveEdit (fun t => decide (t = ['y'])) ⟨0, 1, false⟩ ['('] ['x']
        false).hasInvalidEdit = true
    ∧ cancelIfErrorExists
        (saveEdit (fun t => decide (t = ['y'])) ⟨0, 1, false⟩ ['('] ['x']
          false).hasInvalidEdit = true
    ∧ (saveEdit (fun t => decide (t = ['y'])) ⟨0, 1, false⟩ ['y'] ['x']
        true).ops = [.replace ['y'] 0 1]
    ∧ (saveEdit (fun t => decide (t = ['y'])) ⟨0, 1, false⟩ ['y'] ['x']
        true).buf = ['y']
    ∧ (saveEdit (fun t => decide (t = ['y'])) ⟨0, 1, false⟩ ['y'] ['x']
        true).hasInvalidEdit = true
    ∧ cancelIfErrorExists
        (saveEdit (fun t => decide (t = ['y'])) ⟨0, 1, false⟩ ['y'] ['x']
          true).hasInvalidEdit = true := by
  decide

/-- C7: committing a quarantine-originated edit (blur with text that
lexes) issues exactly the two effects "clear the quarantine bookmark,
then one `replaceRange`" — release strictly before replacement — and the
replacement appends exactly one trailing space and inserts at the
original cursor position: entering `text` yields
`take cur ++ text ++ " " ++ drop cur`.  No character can appear in the
result that was not in the buffer or the typed text, other than the
separator space — in particular no sentinel "x" survives. -/
theorem quarantine_commit (lexOk : Buffer → Bool) (cur : Nat)
    (text buf : Buffer) (hlex : lexOk text = true) :
    (saveEdit lexOk (insertionQuarantine cur text).node
        (insertionQuarantine cur text).elText buf false).ops
      = [.clearQuarantine, .replace (text ++ [' ']) cur cur]
    ∧ (saveEdit lexOk (insertionQuarantine cur text).node
        (insertionQuarantine cur text).elText buf false).buf
      = buf.take cur ++ text ++ [' '] ++ buf.drop cur
    ∧ (∀ c, c ∈ (saveEdit lexOk (insertionQuarantine cur text).node
          (insertionQuarantine cur text).elText buf false).buf →
        c ∈ buf ∨ c ∈ text ∨ c = ' ') := by
  refine ⟨by simp [saveEdit, insertionQuarantine, hlex], ?_, ?_⟩
  · simp [saveEdit, insertionQuarantine, hlex, replaceRange]
  · intro c hc
    simp [saveEdit, insertionQuarantine, hlex, replaceRange] at hc
    rcases hc with h | h | h | h
    · exact Or.inl (List.take_subset _ _ h)
    · exact Or.inr (Or.inl h)
    · exact Or.inr (Or.inr h)
    · exact Or.inl (List.drop_subset _ _ h)

/-- Witness for `quarantine_commit`: typing "abc" into an empty buffer
under block mode and blurring yields exactly "abc " at offset 0. -/
theorem quarantine_commit_witness :
    (saveEdit (fun t => decide (t = ['a','b','c']))
        (insertionQuarantine 0 ['a','b','c']).node
        (insertionQuarantine 0 ['a','b','c']).elText [] false).ops
      = [.clearQuarantine, .replace ['a','b','c',' '] 0 0]
    ∧ (saveEdit (fun t => decide (t = ['a','b','c']))
        (insertionQuarantine 0 ['a','b','c']).node
        (insertionQuarantine 0 ['a','b','c']).elText [] false).buf
      = ['a','b','c',' '] := by
  have h := quarantine_commit (fun t => decide (t = ['a','b','c']))
    0 ['a','b','c'] [] (by decide)
  exact ⟨h.1, h.2.1⟩

/-- C6: the hidden-skipping loops terminate on every finite tree (both
models are structurally recursive and total), but when no visible node
exists in the traversal direction they do NOT yield an empty result:
with the single following (resp. preceding) node hidden, the guard
dereferences a missing node and throws, instead of selecting nothing. -/
theorem selectNode_no_visible_crash :
    selectNextNode [⟨true⟩]
      = .crash "TypeError: cannot read property el of undefined"
    ∧ selectPrevNode [⟨true⟩]
      = .crash "TypeError: cannot read property el of undefined"
    ∧ selectNextNode [⟨true⟩, ⟨false⟩] = .selected ⟨false⟩ := by
  decide

/-- C8 counterexample: the transition that turns block mode off does not
swap the wrapper's mode class — starting from mode "wescheme" with the
wrapper carrying class "wescheme" and one mark, `setBlockMode(false)`
clears the mark but leaves "wescheme" in the class list. -/
theorem setBlockMode_off_class_not_swapped :
    setBlockMode ⟨some "wescheme", ["wescheme"], [0]⟩ none
      = ⟨none, ["wescheme"], []⟩ := by
  decide

/-- C8 (amended): a call with the current mode is a no-op; a transition
whose target is a block mode (off-to-on or block-to-block) swaps the
wrapper's mode class (previous token removed, new token added); the
transition that turns block mode off clears every mark but leaves the
class list untouched. -/
theorem setBlockMode_transitions (s : CMState) (mode : Option String) :
    (mode = s.blockMode → setBlockMode s mode = s)
  ∧ (mode ≠ s.blockMode → mode = none →
       (setBlockMode s mode).marks = []
       ∧ (setBlockMode s mode).classes = s.classes
       ∧ (setBlockMode s mode).blockMode = none)
  ∧ (∀ m, mode = some m → mode ≠ s.blockMode →
       (setBlockMode s mode).classes
         = classListAdd (classListRemove s.classes (modeToken s.blockMode)) m
       ∧ (setBlockMode s mode).blockMode = some m) := by
  refine ⟨?_, ?_, ?_⟩
  · intro h
    simp [setBlockMode, h]
  · intro h1 h2
    subst h2
    simp [setBlockMode, h1]
  · intro m hm h1
    subst hm
    simp [setBlockMode, h1, modeToken]

/-- Witness for `setBlockMode_transitions`: the no-op call, the
off-transition keeping its class, and the first activation adding
"wescheme". -/
theorem setBlockMode_transitions_witness :
    (setBlockMode ⟨none, [], []⟩ none = ⟨none, [], []⟩)
    ∧ ((setBlockMode ⟨some "wescheme", ["wescheme"], [3]⟩ none).marks = []
       ∧ (setBlockMode ⟨some "wescheme", ["wescheme"], [3]⟩ none).classes
           = ["wescheme"]
       ∧ (setBlockMode ⟨some "wescheme", ["wescheme"], [3]⟩ none).blockMode
           = none)
    ∧ ((setBlockMode ⟨none, [], []⟩ (some "wescheme")).classes
         = classListAdd (classListRemove [] (modeToken none)) "wescheme"
       ∧ (setBlockMode ⟨none, [], []⟩ (some "wescheme")).blockMode
           = some "wescheme") := by
  refine ⟨?_, ?_, ?_⟩
  · exact (setBlockMode_transitions ⟨none, [], []⟩ none).1 (by decide)
  · exact (setBlockMode_transitions ⟨some "wescheme", ["wescheme"], [3]⟩
      none).2.1 (by decide) (by decide)
  · exact (setBlockMode_transitions ⟨none, [], []⟩ (some "wescheme")).2.2
      "wescheme" rfl (by decide)

/-- C9: a `markText` call whose options contain any key outside
{css, className, title} raises immediately — the outcome is the raised
error, so no decoration is created and the key is never silently
ignored. -/
theorem markText_unsupported_raises (options : List String)
    (marks : List CMMark) (o : String) (ho : o ∈ options)
    (hu : o ∉ supportedOptions) :
    ∃ msg, markText options marks = .raised msg := by
  have hsome : (options.find? (fun o => !supportedOptions.contains o)).isSome := by
    rw [List.find?_isSome]
    exact ⟨o, ho, by simpa using hu⟩
  rcases hfind : options.find? (fun o => !supportedOptions.contains o) with _ | x
  · rw [hfind] at hsome
    simp at hsome
  · exact ⟨_, by unfold markText; rw [hfind]⟩

/-- Witness for `markText_unsupported_raises`: the unsupported key
"replacedWith" next to a supported "css" key raises. -/
theorem markText_unsupported_raises_witness :
    ∃ msg, markText ["css", "replacedWith"] [] = .raised msg :=
  markText_unsupported_raises ["css", "replacedWith"] [] "replacedWith"
    (by decide) (by decide)

/-- C10: a dragstart event whose target element carries the blank-node
class "blocks-blank" never reaches `startDraggingNode`: when a node
resolves from the target, the dispatcher suppresses the event before any
handler runs; when no node resolves, no handler is called either — so
the drag state never carries a blank node and no drag payload is ever
attached. -/
theorem dragstart_blank_suppressed (node : Option Node) (target : DomEl)
    (h : target.classes.contains "blocks-blank" = true) :
    (node.isSome = true →
       nodeEventHandler dragstartHandlers false node target "dragstart"
         = .suppressed)
    ∧ nodeEventHandler dragstartHandlers false node target "dragstart"
        ≠ .defaultCall := by
  have h2 : "blocks-blank" ∈ target.classes := by simpa using h
  cases node <;> simp [nodeEventHandler, dragstartHandlers, h2]

/-- Witness for `dragstart_blank_suppressed`: a resolved blank node whose
element carries "blocks-node" and "blocks-blank". -/
theorem dragstart_blank_suppressed_witness :
    nodeEventHandler dragstartHandlers false (some ⟨"b1", "blank", 2, 3⟩)
        ⟨["blocks-node", "blocks-blank"]⟩ "dragstart" = .suppressed :=
  (dragstart_blank_suppressed (some ⟨"b1", "blank", 2, 3⟩)
    ⟨["blocks-node", "blocks-blank"]⟩ (by decide)).1 (by decide)

end CodeMirrorBlocks
